import Mathlib

/-!
Access-control middleware (`pkg/services/accesscontrol/middleware/middleware.go`).

A shallow embedding of the gate built by `Middleware`, of the denial handler `Deny`, of the
correlation-id generator `newID` and of `buildScopeParams`.

The Go code works on a request context by side effect (log records, response writes) and calls
collaborators (the evaluator, the access-control engine, the random source, the clock).  Here a
handler is a function from a `World` to a `World`; every call that leaves the file is appended to
the world's `trace`, in program order, so that "was called", "was called before" and "was never
called" are statements about that list.
-/

namespace ACMiddleware

/-! ## Data model -/

/-- A non-nil Go `error` value, identified by its message.  A Go `error` that may be nil is an
`Option GoError`. -/
structure GoError where
  msg : String
  deriving DecidableEq, Repr

/-- The struct `accesscontrol.ScopeParams` as `buildScopeParams` fills it: the org id (`int64`) and
the URL parameters (`map[string]string`, kept as the association list the router hands over). -/
structure ScopeParams where
  OrgID : Int
  URLParams : List (String × String)
  deriving DecidableEq, Repr

/-- The interface `accesscontrol.Evaluator`, as far as this file uses it: a value with an `Inject`
method (returning a new evaluator or an error) and a `String` method. -/
inductive Evaluator where
  | mk (inject : ScopeParams → Except GoError Evaluator) (string : String)

/-- The method `evaluator.Inject(params)`. -/
def Evaluator.Inject : Evaluator → ScopeParams → Except GoError Evaluator
  | .mk f _ => f

/-- The method `evaluator.String()`. -/
def Evaluator.String : Evaluator → String
  | .mk _ s => s

/-- Severity of a log record: `c.Logger.Error` or `c.Logger.Info`. -/
inductive LogLevel where
  | error
  | info
  deriving DecidableEq, Repr

/-- A value passed in the key/value list of a logger call. -/
inductive LogValue where
  | err (e : GoError)
  | str (s : String)
  | int (i : Int)
  deriving DecidableEq, Repr

/-- One structured log record: severity, message, and the key/value pairs in call order. -/
structure LogRecord where
  level : LogLevel
  msg : String
  fields : List (String × LogValue)
  deriving DecidableEq, Repr

/-- The calls that leave `middleware.go`, in the order the code makes them.  `Ctx` is the type of
`c.Req.Context()` and `User` the type of `c.SignedInUser`; both are passed through untouched. -/
inductive Event (Ctx User : Type) where
  /-- The call `evaluator.Inject(params)` on the gate's evaluator. -/
  | inject (evaluator : Evaluator) (params : ScopeParams)
  /-- The call `ac.Evaluate(ctx, user, injected)`. -/
  | evaluate (ctx : Ctx) (user : User) (injected : Evaluator)
  /-- The call `util.GetRandomString(n, alphabet...)`. -/
  | getRandomString (n : Nat) (alphabet : String)
  /-- The call `time.Now().UnixNano()`. -/
  | unixNano
  /-- A record written through `c.Logger`. -/
  | log (r : LogRecord)
  /-- The call `c.JsonApiErr(status, message, err)`. -/
  | jsonApiErr (status : Nat) (message : String) (err : GoError)
  /-- The call `c.Redirect(location)`. -/
  | redirect (location : String)
  /-- The call `c.JSON(status, body)` with a `map[string]string` body. -/
  | json (status : Nat) (body : List (String × String))

/-- What a request handler can read from `*models.ReqContext`. -/
structure ReqContext (Ctx User : Type) where
  /-- The field `c.OrgId`. -/
  OrgId : Int
  /-- The field `c.UserId`. -/
  UserId : Int
  /-- The field `c.SignedInUser`. -/
  SignedInUser : User
  /-- The value `c.Req.Context()`. -/
  ReqCtx : Ctx
  /-- The value `web.Params(c.Req)`: the route's matched parameters. -/
  URLParams : List (String × String)
  /-- The value `c.IsApiRequest()`. -/
  IsApiRequest : Bool

/-- Everything outside the request context that the code reads or writes: the setting
`setting.AppSubUrl`, the outcomes of the random source and the readings of the clock (the `k`-th
call gets the `k`-th entry), how many of each were consumed, and the trace of calls made so far. -/
structure World (Ctx User : Type) where
  AppSubUrl : String
  random : Nat → Except GoError String
  clock : Nat → Int
  randomCalls : Nat
  clockReads : Nat
  trace : List (Event Ctx User)

/-- The type `web.Handler`, here `func(c *models.ReqContext)`. -/
abbrev Handler (Ctx User : Type) := ReqContext Ctx User → World Ctx User → World Ctx User

/-- The interface `accesscontrol.AccessControl`, as far as this file uses it: `IsDisabled()` (read
when the gate is built) and `Evaluate`, which returns the Go pair `(bool, error)`. -/
structure AccessControl (Ctx User : Type) where
  IsDisabled : Bool
  Evaluate : Ctx → User → Evaluator → Bool × Option GoError

section Model

variable {Ctx User : Type}

/-- Append one call to the trace. -/
def World.emit (w : World Ctx User) (e : Event Ctx User) : World Ctx User :=
  { w with trace := w.trace ++ [e] }

/-! ## Collaborators outside the file -/

/-- The constant `http.StatusInternalServerError`. -/
def StatusInternalServerError : Nat := 500

/-- The constant `http.StatusForbidden`. -/
def StatusForbidden : Nat := 403

/-- Modelled from the spec: `util.GetRandomString` is not in the source tree; the call is recorded
and its outcome (a string, or an error when the random source fails) is read from the world. -/
def GetRandomString (n : Nat) (alphabet : String) (w : World Ctx User) :
    Except GoError String × World Ctx User :=
  (w.random w.randomCalls,
    { w with randomCalls := w.randomCalls + 1, trace := w.trace ++ [.getRandomString n alphabet] })

/-- The clock reading `time.Now().UnixNano()`: recorded, and read from the world. -/
def UnixNano (w : World Ctx User) : Int × World Ctx User :=
  (w.clock w.clockReads,
    { w with clockReads := w.clockReads + 1, trace := w.trace ++ [.unixNano] })

/-- Go's `fmt.Sprintf("%d", i)` for an integer: a minus sign for a negative number, then the
decimal digits of its magnitude. -/
def SprintfD (i : Int) : String :=
  if i < 0 then "-" ++ Nat.repr i.natAbs else Nat.repr i.natAbs

/-- Modelled from the spec: `c.JsonApiErr` is not in the source tree; the call is recorded. -/
def JsonApiErr (_c : ReqContext Ctx User) (status : Nat) (message : String) (err : GoError)
    (w : World Ctx User) : World Ctx User :=
  w.emit (.jsonApiErr status message err)

/-- Modelled from the spec: `c.JSON` is not in the source tree; the call is recorded. -/
def JSON (_c : ReqContext Ctx User) (status : Nat) (body : List (String × String))
    (w : World Ctx User) : World Ctx User :=
  w.emit (.json status body)

/-- Modelled from the spec: `c.Redirect` is not in the source tree; the call is recorded. -/
def Redirect (_c : ReqContext Ctx User) (location : String) (w : World Ctx User) :
    World Ctx User :=
  w.emit (.redirect location)

/-- The logger call `c.Logger.Error(msg, fields...)`: one error-severity record. -/
def LoggerError (_c : ReqContext Ctx User) (msg : String) (fields : List (String × LogValue))
    (w : World Ctx User) : World Ctx User :=
  w.emit (.log { level := .error, msg := msg, fields := fields })

/-- The logger call `c.Logger.Info(msg, fields...)`: one info-severity record. -/
def LoggerInfo (_c : ReqContext Ctx User) (msg : String) (fields : List (String × LogValue))
    (w : World Ctx User) : World Ctx User :=
  w.emit (.log { level := .info, msg := msg, fields := fields })

/-! ## The code of `middleware.go` -/

/-- The function `buildScopeParams`. -/
def buildScopeParams (c : ReqContext Ctx User) : ScopeParams :=
  { OrgID := c.OrgId, URLParams := c.URLParams }

/-- The function `newID`: `"ACE"` followed by ten random digits, or by the clock reading when the
random source fails. -/
def newID (w : World Ctx User) : String × World Ctx User :=
  let numerical := "0123456789"
  match GetRandomString 10 numerical w with
  | (.ok id, w1) => ("ACE" ++ id, w1)
  | (.error _, w1) =>
    match UnixNano w1 with
    | (now, w2) => ("ACE" ++ SprintfD now, w2)

/-- The text `fmt.Sprintf` builds for the `message` field of the denial body. -/
def denyMessage (id : String) : String :=
  "Your user account does not have permissions to do the action. We recorded your attempt with log message "
    ++ id ++ ". Contact your administrator for help."

/-- The function `Deny`. -/
def Deny (c : ReqContext Ctx User) (evaluator : Evaluator) (err : Option GoError)
    (w : World Ctx User) : World Ctx User :=
  match newID w with
  | (id, w1) =>
    let w2 :=
      match err with
      | some e =>
        LoggerError c "Error from access control system"
          [("error", .err e), ("accessErrorID", .str id)] w1
      | none =>
        LoggerInfo c "Access denied"
          [("userID", .int c.UserId), ("accessErrorID", .str id),
            ("permissions", .str evaluator.String)] w1
    if !c.IsApiRequest then
      Redirect c (w2.AppSubUrl ++ "/") w2
    else
      JSON c StatusForbidden
        [("title", "Access denied"), ("message", denyMessage id), ("accessErrorId", id)] w2

/-- The function `Middleware`: `Middleware ac fallback evaluator` is the handler that
`Middleware(ac)(fallback, evaluator)` returns. -/
def Middleware (ac : AccessControl Ctx User) (fallback : Handler Ctx User)
    (evaluator : Evaluator) : Handler Ctx User :=
  if ac.IsDisabled then
    fallback
  else
    fun c w =>
      let w1 := w.emit (.inject evaluator (buildScopeParams c))
      match evaluator.Inject (buildScopeParams c) with
      | .error err => JsonApiErr c StatusInternalServerError "Internal server error" err w1
      | .ok injected =>
        let w2 := w1.emit (.evaluate c.ReqCtx c.SignedInUser injected)
        match ac.Evaluate c.ReqCtx c.SignedInUser injected with
        | (hasAccess, err) =>
          if !hasAccess || err.isSome then
            Deny c injected err w2
          else
            w2

/-! ## Reading a trace -/

/-- A call that writes the HTTP response: `c.JsonApiErr`, `c.Redirect` or `c.JSON`. -/
def Event.isResponse : Event Ctx User → Bool
  | .jsonApiErr _ _ _ => true
  | .redirect _ => true
  | .json _ _ => true
  | _ => false

/-- A call of the engine's `Evaluate`. -/
def Event.isEvaluate : Event Ctx User → Bool
  | .evaluate _ _ _ => true
  | _ => false

/-- A call of the evaluator's `Inject`. -/
def Event.isInject : Event Ctx User → Bool
  | .inject _ _ => true
  | _ => false

/-- The log record of a logger call, if the event is one. -/
def Event.logRecord? : Event Ctx User → Option LogRecord
  | .log r => some r
  | _ => none

/-- The response writes of a world, in order. -/
def World.responses (w : World Ctx User) : List (Event Ctx User) :=
  w.trace.filter Event.isResponse

/-- The log records of a world, in order. -/
def World.logs (w : World Ctx User) : List LogRecord :=
  w.trace.filterMap Event.logRecord?

/-- The calls `newID` makes in world `w`: always the random source, and the clock only when the
random source fails. -/
def idEvents (w : World Ctx User) : List (Event Ctx User) :=
  match w.random w.randomCalls with
  | .ok _ => [.getRandomString 10 "0123456789"]
  | .error _ => [.getRandomString 10 "0123456789", .unixNano]

/-- The world in which the gate calls the engine: `w` after the `Inject` and `Evaluate` calls. -/
def afterEvaluate (evaluator injected : Evaluator) (c : ReqContext Ctx User)
    (w : World Ctx User) : World Ctx User :=
  (w.emit (.inject evaluator (buildScopeParams c))).emit
    (.evaluate c.ReqCtx c.SignedInUser injected)

/-- The body `Deny` sends to an API request for correlation id `id`. -/
def denyBody (id : String) : List (String × String) :=
  [("title", "Access denied"),
    ("message",
      "Your user account does not have permissions to do the action. We recorded your attempt with log message "
        ++ id ++ ". Contact your administrator for help."),
    ("accessErrorId", id)]

/-- A call of the random source. -/
def Event.isGetRandomString : Event Ctx User → Bool
  | .getRandomString _ _ => true
  | _ => false

/-- The log record `Deny` writes for correlation id `id`. -/
def denyRecord (c : ReqContext Ctx User) (evaluator : Evaluator) (err : Option GoError)
    (id : String) : LogRecord :=
  match err with
  | some e =>
    { level := .error, msg := "Error from access control system",
      fields := [("error", .err e), ("accessErrorID", .str id)] }
  | none =>
    { level := .info, msg := "Access denied",
      fields := [("userID", .int c.UserId), ("accessErrorID", .str id),
        ("permissions", .str evaluator.String)] }

/-- The calls one run of `Deny` adds in world `w`: the id generation, the log record, the
response. -/
def denyEvents (c : ReqContext Ctx User) (evaluator : Evaluator) (err : Option GoError)
    (w : World Ctx User) : List (Event Ctx User) :=
  idEvents w ++
    [.log (denyRecord c evaluator err (newID w).1),
      if c.IsApiRequest then .json 403 (denyBody (newID w).1)
      else .redirect (w.AppSubUrl ++ "/")]

/-- The value of a list of decimal digit characters, most significant first. -/
def decimalValue (ds : List Char) : Nat :=
  ds.foldl (fun acc ch => 10 * acc + (ch.toNat - 48)) 0

end Model

/-! ## Concrete requests, evaluators and engines -/

/-- A requirement without templates: `Inject` has nothing to substitute and fails. -/
def concreteRequirement (description : String) : Evaluator :=
  .mk (fun _ => .error { msg := "nothing to inject" }) description

/-- A requirement whose scope is templated on the org id and on the URL parameter `id`. -/
def templatedRequirement : Evaluator :=
  .mk
    (fun p =>
      match p.URLParams.lookup "id" with
      | some v => .ok (concreteRequirement ("users:read on orgs:" ++ SprintfD p.OrgID ++ " users:" ++ v))
      | none => .error { msg := "missing URL parameter id" })
    "users:read on orgs:<OrgID> users:<id>"

/-- An API request of user 3 in org 7 on a route matched with `id=42`. -/
def apiRequest : ReqContext String String :=
  { OrgId := 7, UserId := 3, SignedInUser := "alice", ReqCtx := "request-context",
    URLParams := [("id", "42")], IsApiRequest := true }

/-- The same request coming from a browser page. -/
def browserRequest : ReqContext String String :=
  { apiRequest with IsApiRequest := false }

/-- An API request on a route without the `id` parameter. -/
def unmatchedRequest : ReqContext String String :=
  { apiRequest with URLParams := [] }

/-- A world whose random source works. -/
def calmWorld : World String String :=
  { AppSubUrl := "/grafana", random := fun _ => .ok "4815162342", clock := fun _ => 1600000000,
    randomCalls := 0, clockReads := 0, trace := [] }

/-- A world whose random source fails. -/
def dryWorld : World String String :=
  { calmWorld with random := fun _ => .error { msg := "no entropy" } }

/-- A world whose random source fails and whose clock is set before 1970. -/
def earlyWorld : World String String :=
  { dryWorld with clock := fun _ => -1 }

/-- An enabled engine that grants everything. -/
def grantingEngine : AccessControl String String :=
  { IsDisabled := false, Evaluate := fun _ _ _ => (true, none) }

/-- An enabled engine that denies everything. -/
def denyingEngine : AccessControl String String :=
  { IsDisabled := false, Evaluate := fun _ _ _ => (false, none) }

/-- An enabled engine that fails, while reporting `true`. -/
def brokenEngine : AccessControl String String :=
  { IsDisabled := false, Evaluate := fun _ _ _ => (true, some { msg := "database is down" }) }

/-- A disabled engine. -/
def disabledEngine : AccessControl String String :=
  { IsDisabled := true, Evaluate := fun _ _ _ => (false, none) }

/-- A handler that answers every request with a 200. -/
def servingHandler : Handler String String :=
  fun c w => JSON c 200 [("status", "served")] w


/-! ## Lemmas on the model -/

section Lemmas

variable {Ctx User : Type}

theorem newID_of_ok (w : World Ctx User) (s : String) (h : w.random w.randomCalls = .ok s) :
    newID w = ("ACE" ++ s,
      { w with randomCalls := w.randomCalls + 1,
               trace := w.trace ++ [.getRandomString 10 "0123456789"] }) := by
  simp [newID, GetRandomString, h]

theorem newID_of_error (w : World Ctx User) (e : GoError)
    (h : w.random w.randomCalls = .error e) :
    newID w = ("ACE" ++ SprintfD (w.clock w.clockReads),
      { w with randomCalls := w.randomCalls + 1, clockReads := w.clockReads + 1,
               trace := w.trace ++ [.getRandomString 10 "0123456789", .unixNano] }) := by
  simp [newID, GetRandomString, UnixNano, h]

theorem newID_trace (w : World Ctx User) : (newID w).2.trace = w.trace ++ idEvents w := by
  cases h : w.random w.randomCalls with
  | ok s => rw [newID_of_ok w s h]; simp [idEvents, h]
  | error e => rw [newID_of_error w e h]; simp [idEvents, h]

theorem newID_randomCalls (w : World Ctx User) :
    (newID w).2.randomCalls = w.randomCalls + 1 := by
  cases h : w.random w.randomCalls with
  | ok s => rw [newID_of_ok w s h]
  | error e => rw [newID_of_error w e h]

theorem newID_AppSubUrl (w : World Ctx User) : (newID w).2.AppSubUrl = w.AppSubUrl := by
  cases h : w.random w.randomCalls with
  | ok s => rw [newID_of_ok w s h]
  | error e => rw [newID_of_error w e h]

theorem newID_emit (w : World Ctx User) (e : Event Ctx User) :
    (newID (w.emit e)).1 = (newID w).1 := by
  cases h : w.random w.randomCalls with
  | ok s =>
    have h2 : (w.emit e).random (w.emit e).randomCalls = .ok s := h
    rw [newID_of_ok w s h, newID_of_ok _ s h2]
  | error err =>
    have h2 : (w.emit e).random (w.emit e).randomCalls = .error err := h
    rw [newID_of_error w err h, newID_of_error _ err h2]
    rfl

theorem newID_afterEvaluate (evaluator injected : Evaluator) (c : ReqContext Ctx User)
    (w : World Ctx User) :
    (newID (afterEvaluate evaluator injected c w)).1 = (newID w).1 := by
  unfold afterEvaluate
  rw [newID_emit, newID_emit]

theorem idEvents_responses (w : World Ctx User) :
    (idEvents w).filter Event.isResponse = [] := by
  unfold idEvents
  cases w.random w.randomCalls <;> rfl

theorem idEvents_logs (w : World Ctx User) :
    (idEvents w).filterMap Event.logRecord? = [] := by
  unfold idEvents
  cases w.random w.randomCalls <;> rfl

theorem idEvents_not_call (w : World Ctx User) (e : Event Ctx User) (h : e ∈ idEvents w) :
    e.isEvaluate = false ∧ e.isInject = false := by
  unfold idEvents at h
  cases hr : w.random w.randomCalls <;> simp [hr] at h
  · rcases h with h | h <;> subst h <;> exact ⟨rfl, rfl⟩
  · subst h; exact ⟨rfl, rfl⟩

theorem idEvents_count (w : World Ctx User) :
    (idEvents w).countP Event.isGetRandomString = 1 := by
  unfold idEvents
  cases w.random w.randomCalls <;> rfl

theorem Deny_trace (c : ReqContext Ctx User) (evaluator : Evaluator) (err : Option GoError)
    (w : World Ctx User) :
    (Deny c evaluator err w).trace = w.trace ++ denyEvents c evaluator err w := by
  have ht := newID_trace w
  have hu := newID_AppSubUrl w
  unfold denyEvents denyRecord Deny
  generalize newID w = r at ht hu ⊢
  obtain ⟨id, w1⟩ := r
  simp only at ht hu
  cases err <;> cases hapi : c.IsApiRequest <;>
    simp [LoggerError, LoggerInfo, Redirect, JSON, World.emit, ht, hu, denyBody, denyMessage,
      StatusForbidden]

theorem Deny_new_events (c : ReqContext Ctx User) (evaluator : Evaluator)
    (err : Option GoError) (w : World Ctx User) :
    (Deny c evaluator err w).trace.drop w.trace.length = denyEvents c evaluator err w := by
  rw [Deny_trace, List.drop_left]

theorem Deny_randomCalls (c : ReqContext Ctx User) (evaluator : Evaluator)
    (err : Option GoError) (w : World Ctx User) :
    (Deny c evaluator err w).randomCalls = w.randomCalls + 1 := by
  have hr := newID_randomCalls w
  unfold Deny
  generalize newID w = r at hr ⊢
  obtain ⟨id, w1⟩ := r
  simp only at hr
  cases err <;> cases hapi : c.IsApiRequest <;>
    simp [LoggerError, LoggerInfo, Redirect, JSON, World.emit, hr]

theorem Deny_responses (c : ReqContext Ctx User) (evaluator : Evaluator) (err : Option GoError)
    (w : World Ctx User) :
    (Deny c evaluator err w).responses = w.responses ++
      [if c.IsApiRequest then .json 403 (denyBody (newID w).1)
        else .redirect (w.AppSubUrl ++ "/")] := by
  unfold World.responses
  rw [Deny_trace]
  unfold denyEvents
  cases err <;> cases hapi : c.IsApiRequest <;>
    simp [List.filter_append, idEvents_responses, Event.isResponse, List.filter_cons]

theorem Deny_logs (c : ReqContext Ctx User) (evaluator : Evaluator) (err : Option GoError)
    (w : World Ctx User) :
    (Deny c evaluator err w).logs = w.logs ++ [denyRecord c evaluator err (newID w).1] := by
  unfold World.logs
  rw [Deny_trace]
  unfold denyEvents
  cases err <;> cases hapi : c.IsApiRequest <;>
    simp [List.filterMap_append, idEvents_logs, Event.logRecord?, List.filterMap_cons]

theorem denyEvents_not_call (c : ReqContext Ctx User) (evaluator : Evaluator)
    (err : Option GoError) (w : World Ctx User) (e : Event Ctx User)
    (h : e ∈ denyEvents c evaluator err w) : e.isEvaluate = false ∧ e.isInject = false := by
  unfold denyEvents at h
  rw [List.mem_append] at h
  rcases h with h | h
  · exact idEvents_not_call w e h
  · simp only [List.mem_cons, List.mem_singleton, List.not_mem_nil, or_false] at h
    rcases h with h | h
    · subst h; exact ⟨rfl, rfl⟩
    · subst h
      cases c.IsApiRequest <;> exact ⟨rfl, rfl⟩

theorem denyEvents_afterEvaluate (evaluator injected target : Evaluator)
    (c : ReqContext Ctx User) (err : Option GoError) (w : World Ctx User) :
    denyEvents c target err (afterEvaluate evaluator injected c w) =
      denyEvents c target err w := by
  unfold denyEvents
  rw [newID_afterEvaluate]
  rfl

theorem afterEvaluate_trace (evaluator injected : Evaluator) (c : ReqContext Ctx User)
    (w : World Ctx User) :
    (afterEvaluate evaluator injected c w).trace = w.trace ++
      [.inject evaluator (buildScopeParams c), .evaluate c.ReqCtx c.SignedInUser injected] := by
  simp [afterEvaluate, World.emit]

theorem afterEvaluate_responses (evaluator injected : Evaluator) (c : ReqContext Ctx User)
    (w : World Ctx User) :
    (afterEvaluate evaluator injected c w).responses = w.responses := by
  simp [World.responses, afterEvaluate_trace, List.filter_append, List.filter_cons,
    Event.isResponse]

theorem afterEvaluate_logs (evaluator injected : Evaluator) (c : ReqContext Ctx User)
    (w : World Ctx User) :
    (afterEvaluate evaluator injected c w).logs = w.logs := by
  simp [World.logs, afterEvaluate_trace, List.filterMap_append, List.filterMap_cons,
    Event.logRecord?]

theorem Middleware_of_inject_ok (ac : AccessControl Ctx User) (fallback : Handler Ctx User)
    (evaluator injected : Evaluator) (c : ReqContext Ctx User) (w : World Ctx User)
    (hEnabled : ac.IsDisabled = false)
    (hInject : evaluator.Inject (buildScopeParams c) = .ok injected) :
    Middleware ac fallback evaluator c w =
      if !(ac.Evaluate c.ReqCtx c.SignedInUser injected).1
          || (ac.Evaluate c.ReqCtx c.SignedInUser injected).2.isSome then
        Deny c injected (ac.Evaluate c.ReqCtx c.SignedInUser injected).2
          (afterEvaluate evaluator injected c w)
      else afterEvaluate evaluator injected c w := by
  simp [Middleware, hEnabled, hInject, afterEvaluate]

theorem Middleware_of_inject_error (ac : AccessControl Ctx User) (fallback : Handler Ctx User)
    (evaluator : Evaluator) (c : ReqContext Ctx User) (w : World Ctx User) (err : GoError)
    (hEnabled : ac.IsDisabled = false)
    (hInject : evaluator.Inject (buildScopeParams c) = .error err) :
    Middleware ac fallback evaluator c w =
      (w.emit (.inject evaluator (buildScopeParams c))).emit
        (.jsonApiErr 500 "Internal server error" err) := by
  simp [Middleware, hEnabled, hInject, JsonApiErr, StatusInternalServerError]

theorem Middleware_trace_of_inject_ok (ac : AccessControl Ctx User)
    (fallback : Handler Ctx User) (evaluator injected : Evaluator) (c : ReqContext Ctx User)
    (w : World Ctx User) (hEnabled : ac.IsDisabled = false)
    (hInject : evaluator.Inject (buildScopeParams c) = .ok injected) :
    ∃ tail : List (Event Ctx User),
      (Middleware ac fallback evaluator c w).trace =
        w.trace ++ .inject evaluator (buildScopeParams c) ::
          .evaluate c.ReqCtx c.SignedInUser injected :: tail ∧
      ∀ e ∈ tail, e.isEvaluate = false ∧ e.isInject = false := by
  have hrun := Middleware_of_inject_ok ac fallback evaluator injected c w hEnabled hInject
  by_cases hd : (!(ac.Evaluate c.ReqCtx c.SignedInUser injected).1
      || (ac.Evaluate c.ReqCtx c.SignedInUser injected).2.isSome) = true
  · rw [if_pos hd] at hrun
    refine ⟨denyEvents c injected (ac.Evaluate c.ReqCtx c.SignedInUser injected).2 w, ?_, ?_⟩
    · rw [hrun, Deny_trace, afterEvaluate_trace, denyEvents_afterEvaluate]
      simp
    · exact fun e he => denyEvents_not_call c injected _ w e he
  · rw [if_neg hd] at hrun
    refine ⟨[], ?_, ?_⟩
    · rw [hrun, afterEvaluate_trace]
    · intro e he
      simp at he

end Lemmas

/-! ## Lemmas on the decimal rendering -/

section Digits

theorem digitChar_isDigit (d : Nat) (h : d < 10) : (Nat.digitChar d).isDigit = true := by
  interval_cases d <;> rfl

theorem digitChar_value (d : Nat) (h : d < 10) : (Nat.digitChar d).toNat - 48 = d := by
  interval_cases d <;> rfl

theorem toDigitsCore_spec (fuel : Nat) :
    ∀ (n : Nat) (ds : List Char), n < fuel →
      ∃ front : List Char, Nat.toDigitsCore 10 fuel n ds = front ++ ds ∧ front ≠ [] ∧
        (∀ ch ∈ front, ch.isDigit = true) ∧ decimalValue front = n := by
  induction fuel with
  | zero => intro n ds h; omega
  | succ f ih =>
    intro n ds h
    simp only [Nat.toDigitsCore]
    by_cases hq : n / 10 = 0
    · rw [if_pos hq]
      refine ⟨[Nat.digitChar (n % 10)], rfl, by simp, ?_, ?_⟩
      · intro ch hch
        simp only [List.mem_singleton] at hch
        subst hch
        exact digitChar_isDigit _ (Nat.mod_lt _ (by norm_num))
      · have hlt : n < 10 := by omega
        simp only [decimalValue, List.foldl_cons, List.foldl_nil]
        rw [digitChar_value _ (Nat.mod_lt _ (by norm_num))]
        omega
    · rw [if_neg hq]
      obtain ⟨front, hfront, _, hdig, hval⟩ :=
        ih (n / 10) (Nat.digitChar (n % 10) :: ds) (by omega)
      refine ⟨front ++ [Nat.digitChar (n % 10)], ?_, by simp, ?_, ?_⟩
      · rw [hfront]; simp
      · intro ch hch
        rw [List.mem_append] at hch
        rcases hch with hch | hch
        · exact hdig ch hch
        · simp only [List.mem_singleton] at hch
          subst hch
          exact digitChar_isDigit _ (Nat.mod_lt _ (by norm_num))
      · unfold decimalValue at hval ⊢
        rw [List.foldl_append, hval]
        simp only [List.foldl_cons, List.foldl_nil]
        rw [digitChar_value _ (Nat.mod_lt _ (by norm_num))]
        omega

theorem repr_spec (n : Nat) :
    (Nat.repr n).data ≠ [] ∧ (∀ ch ∈ (Nat.repr n).data, ch.isDigit = true) ∧
      decimalValue (Nat.repr n).data = n := by
  obtain ⟨front, hfront, hne, hdig, hval⟩ := toDigitsCore_spec (n + 1) n [] (by omega)
  have h : (Nat.repr n).data = front := by
    simp [Nat.repr, Nat.toDigits, hfront, List.asString]
  rw [h]
  exact ⟨hne, hdig, hval⟩

theorem SprintfD_of_nonneg (t : Int) (h : 0 ≤ t) : SprintfD t = Nat.repr t.natAbs := by
  simp [SprintfD, not_lt.mpr h]

theorem SprintfD_of_neg (t : Int) (h : t < 0) : SprintfD t = "-" ++ Nat.repr t.natAbs := by
  simp [SprintfD, h]

theorem SprintfD_ne_nil (t : Int) : (SprintfD t).data ≠ [] := by
  by_cases h : t < 0
  · rw [SprintfD_of_neg t h]; simp
  · rw [SprintfD_of_nonneg t (not_lt.mp h)]; exact (repr_spec _).1

theorem numerical_isDigit (ch : Char) (h : ch ∈ "0123456789".data) : ch.isDigit = true := by
  have hd : "0123456789".data = ['0', '1', '2', '3', '4', '5', '6', '7', '8', '9'] := rfl
  rw [hd] at h
  simp only [List.mem_cons, List.mem_singleton, List.not_mem_nil, or_false] at h
  rcases h with h | h | h | h | h | h | h | h | h | h <;> subst h <;> rfl

end Digits

/-! ## The claims -/

section Claims

variable {Ctx User : Type}

/-- C1: with access control enabled, when `Inject` succeeds and the engine answers `(false, nil)`
on an API request, the gate adds exactly these calls: `Inject`, `Evaluate`, the id generation, one
info log record and one `c.JSON(403, body)`.  The body has `title = "Access denied"`, the fixed
message around the correlation id, and `accessErrorId` = that id; the log record's `accessErrorID`
is the same id, the one `newID` returned inside `Deny`.  The outcome is the same for every
fallback handler: the fallback is not run. -/
theorem denied_api_request_gets_403 (ac : AccessControl Ctx User) (fallback : Handler Ctx User)
    (evaluator injected : Evaluator) (c : ReqContext Ctx User) (w : World Ctx User)
    (hEnabled : ac.IsDisabled = false)
    (hInject : evaluator.Inject (buildScopeParams c) = .ok injected)
    (hDenied : ac.Evaluate c.ReqCtx c.SignedInUser injected = (false, none))
    (hApi : c.IsApiRequest = true) :
    ∃ id : String, id = (newID (afterEvaluate evaluator injected c w)).1 ∧
      (Middleware ac fallback evaluator c w).trace =
        w.trace ++
          [.inject evaluator (buildScopeParams c), .evaluate c.ReqCtx c.SignedInUser injected]
          ++ idEvents w ++
          [.log { level := .info, msg := "Access denied",
                  fields := [("userID", .int c.UserId), ("accessErrorID", .str id),
                    ("permissions", .str injected.String)] },
            .json 403
              [("title", "Access denied"),
                ("message",
                  "Your user account does not have permissions to do the action. We recorded your attempt with log message "
                    ++ id ++ ". Contact your administrator for help."),
                ("accessErrorId", id)]] ∧
      (Middleware ac fallback evaluator c w).responses =
        w.responses ++
          [.json 403
            [("title", "Access denied"),
              ("message",
                "Your user account does not have permissions to do the action. We recorded your attempt with log message "
                  ++ id ++ ". Contact your administrator for help."),
              ("accessErrorId", id)]] ∧
      (Middleware ac fallback evaluator c w).logs =
        w.logs ++
          [{ level := .info, msg := "Access denied",
             fields := [("userID", .int c.UserId), ("accessErrorID", .str id),
               ("permissions", .str injected.String)] }] ∧
      ∀ other : Handler Ctx User,
        Middleware ac other evaluator c w = Middleware ac fallback evaluator c w := by
  have hrun : ∀ h : Handler Ctx User, Middleware ac h evaluator c w =
      Deny c injected none (afterEvaluate evaluator injected c w) := by
    intro h
    rw [Middleware_of_inject_ok ac h evaluator injected c w hEnabled hInject, hDenied]
    rfl
  refine ⟨_, rfl, ?_, ?_, ?_, ?_⟩
  · rw [hrun, Deny_trace, afterEvaluate_trace, denyEvents_afterEvaluate,
      newID_afterEvaluate evaluator injected c w]
    simp [denyEvents, denyRecord, hApi, denyBody]
  · rw [hrun, Deny_responses, afterEvaluate_responses]
    simp [hApi, denyBody]
  · rw [hrun, Deny_logs, afterEvaluate_logs]
    rfl
  · intro other
    rw [hrun, hrun]

/-- C1, at a concrete request: user 3 of org 7 is denied on an API route matched with `id=42`, and
gets the 403 body for the id `ACE4815162342` that is also in the log record. -/
theorem denied_api_request_gets_403_witness :
    (denyingEngine.IsDisabled = false ∧ apiRequest.IsApiRequest = true) ∧
    (Middleware denyingEngine servingHandler templatedRequirement apiRequest calmWorld).responses =
      [.json 403
        [("title", "Access denied"),
          ("message",
            "Your user account does not have permissions to do the action. We recorded your attempt with log message ACE4815162342. Contact your administrator for help."),
          ("accessErrorId", "ACE4815162342")]] ∧
    (Middleware denyingEngine servingHandler templatedRequirement apiRequest calmWorld).logs =
      [{ level := .info, msg := "Access denied",
         fields := [("userID", .int 3), ("accessErrorID", .str "ACE4815162342"),
           ("permissions", .str "users:read on orgs:7 users:42")] }] := by
  obtain ⟨id, hid, _, hresp, hlogs, _⟩ :=
    denied_api_request_gets_403 denyingEngine servingHandler templatedRequirement
      (concreteRequirement "users:read on orgs:7 users:42") apiRequest calmWorld rfl rfl rfl rfl
  have hval : id = "ACE4815162342" := hid.trans (by decide)
  subst hval
  exact ⟨⟨rfl, rfl⟩, hresp, hlogs⟩

/-- C2 as stated fails: with an enabled engine that grants, a successful `Inject` and a fallback
handler that answers every request it is given, the gate's run contains no response at all, and is
not the outcome of running the fallback from any world. -/
theorem granted_request_does_not_run_fallback :
    grantingEngine.IsDisabled = false ∧
    templatedRequirement.Inject (buildScopeParams apiRequest) =
      .ok (concreteRequirement "users:read on orgs:7 users:42") ∧
    grantingEngine.Evaluate apiRequest.ReqCtx apiRequest.SignedInUser
      (concreteRequirement "users:read on orgs:7 users:42") = (true, none) ∧
    (servingHandler apiRequest calmWorld).responses = [.json 200 [("status", "served")]] ∧
    (Middleware grantingEngine servingHandler templatedRequirement apiRequest calmWorld).responses
      = [] ∧
    ¬ ∃ w : World String String,
      Middleware grantingEngine servingHandler templatedRequirement apiRequest calmWorld =
        servingHandler apiRequest w := by
  refine ⟨rfl, rfl, rfl, rfl, rfl, ?_⟩
  rintro ⟨w, h⟩
  have h2 := congrArg (fun x : World String String => x.trace.getLast?) h
  have h3 : (Middleware grantingEngine servingHandler templatedRequirement apiRequest
      calmWorld).trace.getLast? =
      some (.evaluate "request-context" "alice"
        (concreteRequirement "users:read on orgs:7 users:42")) := rfl
  simp [servingHandler, JSON, World.emit, h3] at h2

/-- C2, amended: with access control enabled, when `Inject` succeeds and the engine answers
`(true, nil)`, the gate returns after the `Inject` and `Evaluate` calls and does nothing else: it
writes no response (no 403, no redirect), no log record, generates no id, and does not run the
fallback handler itself. -/
theorem granted_request_passes_the_gate (ac : AccessControl Ctx User)
    (fallback : Handler Ctx User) (evaluator injected : Evaluator) (c : ReqContext Ctx User)
    (w : World Ctx User)
    (hEnabled : ac.IsDisabled = false)
    (hInject : evaluator.Inject (buildScopeParams c) = .ok injected)
    (hGranted : ac.Evaluate c.ReqCtx c.SignedInUser injected = (true, none)) :
    Middleware ac fallback evaluator c w =
        (w.emit (.inject evaluator (buildScopeParams c))).emit
          (.evaluate c.ReqCtx c.SignedInUser injected) ∧
      (Middleware ac fallback evaluator c w).trace =
        w.trace ++
          [.inject evaluator (buildScopeParams c), .evaluate c.ReqCtx c.SignedInUser injected] ∧
      (Middleware ac fallback evaluator c w).responses = w.responses ∧
      (Middleware ac fallback evaluator c w).logs = w.logs ∧
      (Middleware ac fallback evaluator c w).randomCalls = w.randomCalls ∧
      ∀ other : Handler Ctx User,
        Middleware ac other evaluator c w = Middleware ac fallback evaluator c w := by
  have hrun : ∀ h : Handler Ctx User, Middleware ac h evaluator c w =
      afterEvaluate evaluator injected c w := by
    intro h
    rw [Middleware_of_inject_ok ac h evaluator injected c w hEnabled hInject, hGranted]
    rfl
  refine ⟨hrun fallback, ?_, ?_, ?_, ?_, ?_⟩
  · rw [hrun, afterEvaluate_trace]
  · rw [hrun, afterEvaluate_responses]
  · rw [hrun, afterEvaluate_logs]
  · rw [hrun]; rfl
  · intro other
    rw [hrun, hrun]

/-- C2 amended, at a concrete request: the granted request leaves only the two calls. -/
theorem granted_request_passes_the_gate_witness :
    grantingEngine.IsDisabled = false ∧
    (Middleware grantingEngine servingHandler templatedRequirement apiRequest calmWorld).trace =
      [.inject templatedRequirement { OrgID := 7, URLParams := [("id", "42")] },
        .evaluate "request-context" "alice"
          (concreteRequirement "users:read on orgs:7 users:42")] :=
  ⟨rfl,
    (granted_request_passes_the_gate grantingEngine servingHandler templatedRequirement
      (concreteRequirement "users:read on orgs:7 users:42") apiRequest calmWorld
      rfl rfl rfl).2.1⟩

/-- C3: with access control enabled and a successful `Inject`, when the engine returns an error
(together with `true` or with `false`) the gate runs `Deny` with that error and not the fallback
handler, and the response it writes is the one written when another enabled engine answers
`(false, nil)` on the same request in the same world (hence with the same correlation id): the
403 body for an API request, the redirect otherwise.  The error does not occur in it. -/
theorem engine_error_is_answered_like_denial (ac denying : AccessControl Ctx User)
    (fallback : Handler Ctx User) (evaluator injected : Evaluator) (c : ReqContext Ctx User)
    (w : World Ctx User) (hasAccess : Bool) (err : GoError)
    (hEnabled : ac.IsDisabled = false) (hEnabled2 : denying.IsDisabled = false)
    (hInject : evaluator.Inject (buildScopeParams c) = .ok injected)
    (hError : ac.Evaluate c.ReqCtx c.SignedInUser injected = (hasAccess, some err))
    (hDenied : denying.Evaluate c.ReqCtx c.SignedInUser injected = (false, none)) :
    Middleware ac fallback evaluator c w =
        Deny c injected (some err) (afterEvaluate evaluator injected c w) ∧
      (∀ other : Handler Ctx User,
        Middleware ac other evaluator c w = Middleware ac fallback evaluator c w) ∧
      (Middleware ac fallback evaluator c w).responses =
        (Middleware denying fallback evaluator c w).responses ∧
      (Middleware ac fallback evaluator c w).responses =
        w.responses ++
          [if c.IsApiRequest then
            .json 403
              [("title", "Access denied"),
                ("message",
                  "Your user account does not have permissions to do the action. We recorded your attempt with log message "
                    ++ (newID (afterEvaluate evaluator injected c w)).1
                    ++ ". Contact your administrator for help."),
                ("accessErrorId", (newID (afterEvaluate evaluator injected c w)).1)]
          else .redirect (w.AppSubUrl ++ "/")] := by
  have hrun : ∀ h : Handler Ctx User, Middleware ac h evaluator c w =
      Deny c injected (some err) (afterEvaluate evaluator injected c w) := by
    intro h
    rw [Middleware_of_inject_ok ac h evaluator injected c w hEnabled hInject, hError]
    cases hasAccess <;> rfl
  have hrun2 : Middleware denying fallback evaluator c w =
      Deny c injected none (afterEvaluate evaluator injected c w) := by
    rw [Middleware_of_inject_ok denying fallback evaluator injected c w hEnabled2 hInject,
      hDenied]
    rfl
  refine ⟨hrun fallback, ?_, ?_, ?_⟩
  · intro other
    rw [hrun, hrun]
  · rw [hrun, hrun2, Deny_responses, Deny_responses]
  · rw [hrun, Deny_responses, afterEvaluate_responses]
    rfl

/-- C3, at a concrete request: an engine that fails while reporting `true` and an engine that
denies give the same 403 response. -/
theorem engine_error_is_answered_like_denial_witness :
    (brokenEngine.IsDisabled = false ∧
      brokenEngine.Evaluate apiRequest.ReqCtx apiRequest.SignedInUser
        (concreteRequirement "users:read on orgs:7 users:42")
        = (true, some { msg := "database is down" })) ∧
    (Middleware brokenEngine servingHandler templatedRequirement apiRequest calmWorld).responses =
      (Middleware denyingEngine servingHandler templatedRequirement apiRequest
        calmWorld).responses :=
  ⟨⟨rfl, rfl⟩,
    (engine_error_is_answered_like_denial brokenEngine denyingEngine servingHandler
      templatedRequirement (concreteRequirement "users:read on orgs:7 users:42") apiRequest
      calmWorld true { msg := "database is down" } rfl rfl rfl rfl rfl).2.2.1⟩

/-- C4: with access control enabled, when `Inject` returns an error the gate calls
`c.JsonApiErr(500, "Internal server error", err)` and returns: the only calls it adds are the
`Inject` call and that response, so `Evaluate` is not called, no id is generated, no log record,
403 or redirect is written, and neither the engine's answers nor the fallback handler matter. -/
theorem inject_failure_gets_500 (ac : AccessControl Ctx User) (fallback : Handler Ctx User)
    (evaluator : Evaluator) (c : ReqContext Ctx User) (w : World Ctx User) (err : GoError)
    (hEnabled : ac.IsDisabled = false)
    (hInject : evaluator.Inject (buildScopeParams c) = .error err) :
    (Middleware ac fallback evaluator c w).trace =
        w.trace ++
          [.inject evaluator (buildScopeParams c),
            .jsonApiErr 500 "Internal server error" err] ∧
      (Middleware ac fallback evaluator c w).responses =
        w.responses ++ [.jsonApiErr 500 "Internal server error" err] ∧
      (Middleware ac fallback evaluator c w).logs = w.logs ∧
      (Middleware ac fallback evaluator c w).randomCalls = w.randomCalls ∧
      (Middleware ac fallback evaluator c w).clockReads = w.clockReads ∧
      ∀ (engine : AccessControl Ctx User) (other : Handler Ctx User),
        engine.IsDisabled = false →
          Middleware engine other evaluator c w = Middleware ac fallback evaluator c w := by
  have hrun := Middleware_of_inject_error ac fallback evaluator c w err hEnabled hInject
  refine ⟨?_, ?_, ?_, ?_, ?_, ?_⟩
  · rw [hrun]; simp [World.emit]
  · rw [hrun]
    simp [World.responses, World.emit, List.filter_append, List.filter_cons, Event.isResponse]
  · rw [hrun]
    simp [World.logs, World.emit, List.filterMap_append, List.filterMap_cons, Event.logRecord?]
  · rw [hrun]; rfl
  · rw [hrun]; rfl
  · intro engine other hOn
    rw [hrun, Middleware_of_inject_error engine other evaluator c w err hOn hInject]

/-- C4, at a concrete request: the route has no `id` parameter, `Inject` fails, and the gate
answers 500 without asking the engine. -/
theorem inject_failure_gets_500_witness :
    (denyingEngine.IsDisabled = false ∧
      templatedRequirement.Inject (buildScopeParams unmatchedRequest)
        = .error { msg := "missing URL parameter id" }) ∧
    (Middleware denyingEngine servingHandler templatedRequirement unmatchedRequest
        calmWorld).trace =
      [.inject templatedRequirement { OrgID := 7, URLParams := [] },
        .jsonApiErr 500 "Internal server error" { msg := "missing URL parameter id" }] :=
  ⟨⟨rfl, rfl⟩,
    (inject_failure_gets_500 denyingEngine servingHandler templatedRequirement unmatchedRequest
      calmWorld { msg := "missing URL parameter id" } rfl rfl).1⟩

/-- C5: when `IsDisabled()` is true as the gate is built, `Middleware(ac)(fallback, evaluator)`
is the fallback handler itself, for every evaluator; on every request and world it does what the
fallback does and nothing more (no `Inject`, `Evaluate`, id or log record of the gate). -/
theorem disabled_gate_is_the_fallback (ac : AccessControl Ctx User)
    (fallback : Handler Ctx User) (evaluator : Evaluator)
    (hDisabled : ac.IsDisabled = true) :
    Middleware ac fallback evaluator = fallback ∧
      ∀ (c : ReqContext Ctx User) (w : World Ctx User),
        Middleware ac fallback evaluator c w = fallback c w := by
  have h : Middleware ac fallback evaluator = fallback := by
    simp [Middleware, hDisabled]
  exact ⟨h, fun c w => by rw [h]⟩

/-- C5, at a concrete request: behind a disabled engine the serving handler answers, and the
trace holds nothing else. -/
theorem disabled_gate_is_the_fallback_witness :
    disabledEngine.IsDisabled = true ∧
    (Middleware disabledEngine servingHandler templatedRequirement apiRequest calmWorld).trace =
      [.json 200 [("status", "served")]] :=
  ⟨rfl,
    ((disabled_gate_is_the_fallback disabledEngine servingHandler templatedRequirement rfl).2
      apiRequest calmWorld) ▸ rfl⟩

/-- C6: every call of `Deny` consumes exactly one outcome of the random source (one correlation
id, one call of `util.GetRandomString`) and adds exactly one log record.  With an error it is an
error-severity record with the fields `error` = the error and `accessErrorID` = the id, and no
description of the requirement; without one it is an info-severity record with `userID` =
`c.UserId`, `accessErrorID` = the id and `permissions` = `evaluator.String()`. -/
theorem deny_logs_one_record (c : ReqContext Ctx User) (evaluator : Evaluator)
    (w : World Ctx User) :
    (∀ err : GoError,
      (Deny c evaluator (some err) w).logs =
        w.logs ++
          [{ level := .error, msg := "Error from access control system",
             fields := [("error", .err err), ("accessErrorID", .str (newID w).1)] }]) ∧
      (Deny c evaluator none w).logs =
        w.logs ++
          [{ level := .info, msg := "Access denied",
             fields := [("userID", .int c.UserId), ("accessErrorID", .str (newID w).1),
               ("permissions", .str evaluator.String)] }] ∧
      ∀ err : Option GoError,
        (Deny c evaluator err w).randomCalls = w.randomCalls + 1 ∧
          ((Deny c evaluator err w).trace.drop w.trace.length).countP
            Event.isGetRandomString = 1 := by
  refine ⟨fun err => Deny_logs c evaluator (some err) w, Deny_logs c evaluator none w, ?_⟩
  intro err
  refine ⟨Deny_randomCalls c evaluator err w, ?_⟩
  rw [Deny_new_events]
  unfold denyEvents
  rw [List.countP_append, idEvents_count]
  cases c.IsApiRequest <;> rfl

/-- C7: on a request that is not an API request, `Deny` (with or without an error) writes one
response, the redirect to `setting.AppSubUrl + "/"`, and no `c.JSON` call at all; and whenever a
call of `Deny` adds a `c.JSON` response, the request is an API request and the status is 403. -/
theorem deny_redirects_browser_requests (c : ReqContext Ctx User) (evaluator : Evaluator)
    (err : Option GoError) (w : World Ctx User) :
    (c.IsApiRequest = false →
      (Deny c evaluator err w).responses = w.responses ++ [.redirect (w.AppSubUrl ++ "/")] ∧
        ∀ (status : Nat) (body : List (String × String)),
          .json status body ∉ (Deny c evaluator err w).trace.drop w.trace.length) ∧
      ∀ (status : Nat) (body : List (String × String)),
        .json status body ∈ (Deny c evaluator err w).trace.drop w.trace.length →
          c.IsApiRequest = true ∧ status = 403 := by
  have hjson : ∀ (status : Nat) (body : List (String × String)),
      .json status body ∈ (Deny c evaluator err w).trace.drop w.trace.length →
        c.IsApiRequest = true ∧ status = 403 := by
    intro status body hmem
    rw [Deny_new_events] at hmem
    unfold denyEvents idEvents at hmem
    cases hr : w.random w.randomCalls <;> cases hapi : c.IsApiRequest <;>
      simp [hr, hapi] at hmem <;> simp [hmem]
  refine ⟨fun hBrowser => ⟨?_, ?_⟩, hjson⟩
  · rw [Deny_responses]
    simp [hBrowser]
  · intro status body hmem
    have := (hjson status body hmem).1
    rw [hBrowser] at this
    exact Bool.noConfusion this

/-- C7, at a concrete request: the browser request that the failing engine rejects is
redirected to `/grafana/`. -/
theorem deny_redirects_browser_requests_witness :
    browserRequest.IsApiRequest = false ∧
    (Deny browserRequest (concreteRequirement "users:read on orgs:7 users:42")
        (some { msg := "database is down" }) calmWorld).responses =
      [.redirect "/grafana/"] :=
  ⟨rfl,
    ((deny_redirects_browser_requests browserRequest
      (concreteRequirement "users:read on orgs:7 users:42") (some { msg := "database is down" })
      calmWorld).1 rfl).1⟩

/-- C8: with access control enabled, the first call the gate makes is `Inject`, on scope
parameters whose `OrgID` is `c.OrgId` and whose `URLParams` are the route's parameters as given
(`buildScopeParams` is a total function: it cannot fail).  `Inject` is not called again.  When
`Inject` returns a requirement, the next call is `Evaluate` with the request's context, the
unchanged `c.SignedInUser` and that requirement, and `Evaluate` is not called again; when `Inject`
fails, `Evaluate` is not called. -/
theorem inject_precedes_evaluate (ac : AccessControl Ctx User) (fallback : Handler Ctx User)
    (evaluator : Evaluator) (c : ReqContext Ctx User) (w : World Ctx User)
    (hEnabled : ac.IsDisabled = false) :
    buildScopeParams c = { OrgID := c.OrgId, URLParams := c.URLParams } ∧
    ∃ rest : List (Event Ctx User),
      (Middleware ac fallback evaluator c w).trace =
        w.trace ++ .inject evaluator { OrgID := c.OrgId, URLParams := c.URLParams } :: rest ∧
      (∀ e ∈ rest, e.isInject = false) ∧
      (∀ injected : Evaluator, evaluator.Inject (buildScopeParams c) = .ok injected →
        ∃ tail : List (Event Ctx User),
          rest = .evaluate c.ReqCtx c.SignedInUser injected :: tail ∧
            ∀ e ∈ tail, e.isEvaluate = false) ∧
      (∀ err : GoError, evaluator.Inject (buildScopeParams c) = .error err →
        ∀ e ∈ rest, e.isEvaluate = false) := by
  refine ⟨rfl, ?_⟩
  cases hInject : evaluator.Inject (buildScopeParams c) with
  | error err =>
    refine ⟨[.jsonApiErr 500 "Internal server error" err], ?_, ?_, ?_, ?_⟩
    · rw [Middleware_of_inject_error ac fallback evaluator c w err hEnabled hInject]
      simp [World.emit, buildScopeParams]
    · intro e he
      simp only [List.mem_singleton] at he
      subst he
      rfl
    · intro injected hOk
      cases hOk
    · intro _ _ e he
      simp only [List.mem_singleton] at he
      subst he
      rfl
  | ok injected =>
    obtain ⟨tail, htrace, htail⟩ :=
      Middleware_trace_of_inject_ok ac fallback evaluator injected c w hEnabled hInject
    refine ⟨.evaluate c.ReqCtx c.SignedInUser injected :: tail, htrace, ?_, ?_, ?_⟩
    · intro e he
      rw [List.mem_cons] at he
      rcases he with he | he
      · subst he; rfl
      · exact (htail e he).2
    · intro injected2 hOk
      cases hOk
      exact ⟨tail, rfl, fun e he => (htail e he).1⟩
    · intro err hErr
      cases hErr

/-- C8, at a concrete request: org id 7 and the URL parameter `id=42` reach `Inject` as
`OrgID` 7 and `id ↦ 42`, and the engine is then asked about the requirement on `orgs:7` and
user `42`, for the principal `alice`. -/
theorem inject_precedes_evaluate_witness :
    grantingEngine.IsDisabled = false ∧
    ∃ rest : List (Event String String),
      (Middleware grantingEngine servingHandler templatedRequirement apiRequest calmWorld).trace =
        .inject templatedRequirement { OrgID := 7, URLParams := [("id", "42")] } :: rest ∧
      ∃ tail : List (Event String String),
        rest = .evaluate "request-context" "alice"
          (concreteRequirement "users:read on orgs:7 users:42") :: tail ∧
        ∀ e ∈ tail, e.isEvaluate = false := by
  obtain ⟨_, rest, htrace, _, hOk, _⟩ :=
    inject_precedes_evaluate grantingEngine servingHandler templatedRequirement apiRequest
      calmWorld rfl
  exact ⟨rfl, rest, htrace, hOk (concreteRequirement "users:read on orgs:7 users:42") rfl⟩

/-- C9: whatever the random source and the clock give, `newID` returns a non-empty string whose
first three characters are `ACE`; and when the random source returns ten characters taken from
`0123456789`, the result is `ACE` followed by exactly those ten characters, all of them decimal
digits: 13 characters. -/
theorem newID_starts_with_ACE (w : World Ctx User) :
    (∃ rest : String, (newID w).1 = "ACE" ++ rest) ∧
      (newID w).1.data.take 3 = ['A', 'C', 'E'] ∧
      (newID w).1 ≠ "" ∧
      ∀ s : String, w.random w.randomCalls = .ok s → s.length = 10 →
        (∀ ch ∈ s.data, ch ∈ "0123456789".data) →
          (newID w).1 = "ACE" ++ s ∧ (newID w).1.length = 13 ∧
            ∀ ch ∈ (newID w).1.data.drop 3, ch.isDigit = true := by
  have hstart : ∃ rest : String, (newID w).1 = "ACE" ++ rest := by
    cases h : w.random w.randomCalls with
    | ok s => exact ⟨s, by rw [newID_of_ok w s h]⟩
    | error e => exact ⟨_, by rw [newID_of_error w e h]⟩
  obtain ⟨rest, hrest⟩ := hstart
  have hdata : (newID w).1.data = 'A' :: 'C' :: 'E' :: rest.data := by
    rw [hrest, String.data_append]
    rfl
  refine ⟨⟨rest, hrest⟩, ?_, ?_, ?_⟩
  · rw [hdata]; rfl
  · intro hempty
    rw [hempty] at hdata
    exact absurd hdata (by simp)
  · intro s hs hlen hchars
    have hid : (newID w).1 = "ACE" ++ s := by rw [newID_of_ok w s hs]
    refine ⟨hid, ?_, ?_⟩
    · rw [hid, String.length_append, hlen]
      rfl
    · intro ch hch
      rw [hid, String.data_append] at hch
      exact numerical_isDigit ch (hchars ch hch)

/-- C9, at a concrete world: the random source returns `4815162342`, the id is
`ACE4815162342`, of length 13. -/
theorem newID_starts_with_ACE_witness :
    calmWorld.random calmWorld.randomCalls = .ok "4815162342" ∧
    (newID calmWorld).1 = "ACE" ++ "4815162342" ∧ (newID calmWorld).1.length = 13 :=
  ⟨rfl,
    ((newID_starts_with_ACE calmWorld).2.2.2 "4815162342" rfl (by decide) (by decide)).1,
    ((newID_starts_with_ACE calmWorld).2.2.2 "4815162342" rfl (by decide) (by decide)).2.1⟩

/-- C10 as stated fails: the random source fails, the clock reads -1 nanoseconds (a signed
64-bit value), and `newID` returns `ACE-1`: what follows `ACE` is not made of digits only. -/
theorem newID_before_1970_has_a_sign :
    earlyWorld.random earlyWorld.randomCalls = .error { msg := "no entropy" } ∧
    earlyWorld.clock earlyWorld.clockReads = -1 ∧
    (-(2 : Int) ^ 63 ≤ -1 ∧ (-1 : Int) < 2 ^ 63) ∧
    (newID earlyWorld).1 = "ACE-1" ∧
    ¬ ∀ ch ∈ (newID earlyWorld).1.data.drop 3, ch.isDigit = true := by
  refine ⟨rfl, rfl, by decide, by decide, by decide⟩

/-- C10, amended: when the random source fails, `newID` returns `ACE` followed by the decimal
rendering of the clock reading, which is never empty.  For a reading that is not negative, what
follows `ACE` is made of decimal digits only, and their value is the reading; for a negative
reading it is a minus sign followed by the decimal digits of the magnitude. -/
theorem newID_falls_back_to_the_clock (w : World Ctx User) (e : GoError)
    (hFail : w.random w.randomCalls = .error e) :
    (newID w).1 = "ACE" ++ SprintfD (w.clock w.clockReads) ∧
      (newID w).1.data.drop 3 = (SprintfD (w.clock w.clockReads)).data ∧
      (newID w).1.data.drop 3 ≠ [] ∧
      (0 ≤ w.clock w.clockReads →
        (∀ ch ∈ (newID w).1.data.drop 3, ch.isDigit = true) ∧
          (decimalValue ((newID w).1.data.drop 3) : Int) = w.clock w.clockReads) ∧
      (w.clock w.clockReads < 0 →
        ∃ digits : List Char, (newID w).1.data.drop 3 = '-' :: digits ∧ digits ≠ [] ∧
          (∀ ch ∈ digits, ch.isDigit = true) ∧
          (decimalValue digits : Int) = -(w.clock w.clockReads)) := by
  have hid : (newID w).1 = "ACE" ++ SprintfD (w.clock w.clockReads) := by
    rw [newID_of_error w e hFail]
  have hdrop : (newID w).1.data.drop 3 = (SprintfD (w.clock w.clockReads)).data := by
    rw [hid, String.data_append]
    rfl
  refine ⟨hid, hdrop, ?_, ?_, ?_⟩
  · rw [hdrop]
    exact SprintfD_ne_nil _
  · intro hpos
    rw [hdrop, SprintfD_of_nonneg _ hpos]
    obtain ⟨_, hdig, hval⟩ := repr_spec (w.clock w.clockReads).natAbs
    refine ⟨hdig, ?_⟩
    rw [hval]
    omega
  · intro hneg
    rw [hdrop, SprintfD_of_neg _ hneg, String.data_append]
    obtain ⟨hne, hdig, hval⟩ := repr_spec (w.clock w.clockReads).natAbs
    refine ⟨(Nat.repr (w.clock w.clockReads).natAbs).data, rfl, hne, hdig, ?_⟩
    rw [hval]
    omega

/-- C10 amended, at a concrete world: the random source fails at 1600000000 ns, and the id is
`ACE1600000000`. -/
theorem newID_falls_back_to_the_clock_witness :
    dryWorld.random dryWorld.randomCalls = .error { msg := "no entropy" } ∧
    (newID dryWorld).1 = "ACE" ++ SprintfD 1600000000 ∧
    (newID dryWorld).1 = "ACE1600000000" :=
  ⟨rfl, (newID_falls_back_to_the_clock dryWorld { msg := "no entropy" } rfl).1, by decide⟩

end Claims

end ACMiddleware
